import Mathlib

/-!
Shallow embedding of talk/base/physicalsocketserver.cc (libjingle).

The C++ source is embedded as executable Lean definitions: the socket state
is a record, each operation is a pure function from state to (result, state),
OS-level calls (socket, connect, recv, closesocket, getsockopt, ping) are
modelled by explicit outcome parameters, and event masks are Nat bitmasks
at uint8 width as in the source.
-/

namespace talk_base

/-- DE_ event bits of the logical event bitmask (physicalsocketserver.h):
DE_READ, DE_WRITE, DE_CONNECT, DE_CLOSE, DE_ACCEPT are distinct single bits
stored in the uint8 field enabled_events_. -/
def DE_READ : Nat := 1

def DE_WRITE : Nat := 2

def DE_CONNECT : Nat := 4

def DE_CLOSE : Nat := 8

def DE_ACCEPT : Nat := 16

/-- SOCKET_ERROR sentinel returned by failing socket operations. -/
def SOCKET_ERROR : Int := -1

/-- errno value EWOULDBLOCK (= EAGAIN on Linux). -/
def EWOULDBLOCK : Nat := 11

/-- errno value EINPROGRESS. -/
def EINPROGRESS : Nat := 115

/-- errno value EALREADY. -/
def EALREADY : Nat := 114

/-- socket type SOCK_STREAM. -/
def SOCK_STREAM : Nat := 1

/-- socket type SOCK_DGRAM. -/
def SOCK_DGRAM : Nat := 2

/-- Modelled from the spec: IsBlockingError (socket.h, not under src/): the
reserved would-block error kinds, per the spec error taxonomy WOULD_BLOCK /
IN_PROGRESS (EAGAIN equals EWOULDBLOCK on Linux). -/
def IsBlockingError (e : Nat) : Bool :=
  e == EWOULDBLOCK || e == EINPROGRESS

/-- ConnState of a socket (socket.h): CS_CLOSED, CS_CONNECTING, CS_CONNECTED. -/
inductive ConnState where
  | CS_CLOSED
  | CS_CONNECTING
  | CS_CONNECTED
deriving DecidableEq, Repr

/-- SocketAddress value: only the fields the embedded code inspects —
whether IsUnresolved() holds, plus an abstract identity. -/
structure SocketAddress where
  unresolved : Bool
  ident : Nat
deriving DecidableEq, Repr

/-- PhysicalSocket state: handle s_ (none = INVALID_SOCKET), enabled_events_,
udp_, error_, state_, resolver_ (the owned AsyncResolver is represented by
the address it is resolving). -/
structure SockState where
  s : Option Nat
  enabled_events : Nat
  udp : Bool
  error : Nat
  state : ConnState
  resolver : Option SocketAddress
deriving DecidableEq, Repr

/-- PhysicalSocket::PhysicalSocket(ss, s). osType models the getsockopt
SO_TYPE query made when the handle is valid; in the source udp_ is left
uninitialized when the handle is invalid, modelled here as false. -/
def mkPhysicalSocket (osType : Nat) (s : Option Nat) : SockState :=
  { s := s
  , enabled_events := if s.isSome then DE_READ ||| DE_WRITE else 0
  , udp := s.isSome && (osType == SOCK_DGRAM)
  , error := 0
  , state := if s.isSome then ConnState.CS_CONNECTED else ConnState.CS_CLOSED
  , resolver := none }

/-- PhysicalSocketServer::WrapSocket(s): adopts an existing valid OS handle by
constructing SocketDispatcher(s, ss), i.e. PhysicalSocket(ss, s). -/
def WrapSocket (osType : Nat) (s : Nat) : SockState :=
  mkPhysicalSocket osType (some s)

/-- PhysicalSocket::Close: early-returns 0 on an invalid handle; otherwise
closes the handle (::closesocket on a valid handle is modelled as succeeding,
so the returned err and the recorded errno are 0), invalidates s_, sets
CS_CLOSED, clears enabled_events_ and drops any pending resolver. -/
def Close (st : SockState) : Int × SockState :=
  match st.s with
  | none => (0, st)
  | some _ =>
      (0, { st with
              s := none
            , error := 0
            , state := ConnState.CS_CLOSED
            , enabled_events := 0
            , resolver := none })

/-- PhysicalSocket::Create(type): closes any prior handle, then opens a new
one (::socket is modelled as succeeding and returning the handle fresh),
records udp_ from the type and enables READ and WRITE for datagram sockets. -/
def Create (fresh : Nat) (type : Nat) (st : SockState) : Bool × SockState :=
  let st1 := (Close st).2
  let st2 := { st1 with s := some fresh, udp := (type == SOCK_DGRAM), error := 0 }
  let st3 := if st2.udp then { st2 with enabled_events := DE_READ ||| DE_WRITE } else st2
  (true, st3)

/-- PhysicalSocket::DoConnect(connect_addr): os models the outcome of the
OS-level ::connect call — none is success (0), some e is failure with errno
e. On success the state becomes CS_CONNECTED; on a blocking error the state
becomes CS_CONNECTING and DE_CONNECT is armed; otherwise SOCKET_ERROR.
Either non-failing path finally arms DE_READ and DE_WRITE. -/
def DoConnect (os : Option Nat) (st : SockState) : Int × SockState :=
  match os with
  | none =>
      let st1 := { st with error := 0, state := ConnState.CS_CONNECTED }
      (0, { st1 with enabled_events := st1.enabled_events ||| (DE_READ ||| DE_WRITE) })
  | some e =>
      let st1 := { st with error := e }
      if IsBlockingError e then
        let st2 := { st1 with
                       state := ConnState.CS_CONNECTING
                     , enabled_events := st1.enabled_events ||| DE_CONNECT }
        (0, { st2 with enabled_events := st2.enabled_events ||| (DE_READ ||| DE_WRITE) })
      else
        (SOCKET_ERROR, st1)

/-- PhysicalSocket::Connect(addr): implicitly creates a stream socket when the
handle is invalid (fresh models the new handle; creation is modelled as
succeeding); for an unresolved address requires CS_CLOSED (else fails with
EALREADY), starts an owned resolver for addr and moves to CS_CONNECTING
before returning 0; for a resolved address falls through to DoConnect with
OS outcome os. -/
def Connect (fresh : Nat) (os : Option Nat) (addr : SocketAddress)
    (st : SockState) : Int × SockState :=
  let st0 := if st.s.isNone then (Create fresh SOCK_STREAM st).2 else st
  if addr.unresolved then
    if st0.state ≠ ConnState.CS_CLOSED then
      (SOCKET_ERROR, { st0 with error := EALREADY })
    else
      (0, { st0 with resolver := some addr, state := ConnState.CS_CONNECTING })
  else
    DoConnect os st0

/-- Outcome of the OS-level ::recv call: the return value and the errno it
left behind. -/
structure OsRecv where
  received : Int
  errno : Nat
deriving DecidableEq, Repr

/-- PhysicalSocket::Recv(buffer, length): when ::recv returns 0 on a non-zero
capacity (peer graceful close), re-arms DE_READ, records EWOULDBLOCK and
returns SOCKET_ERROR (deferred close); otherwise records errno and re-arms
DE_READ when the socket is UDP or the call succeeded or would block. -/
def Recv (os : OsRecv) (length : Nat) (st : SockState) : Int × SockState :=
  if os.received == 0 && length != 0 then
    (SOCKET_ERROR, { st with
                       enabled_events := st.enabled_events ||| DE_READ
                     , error := EWOULDBLOCK })
  else
    let st1 := { st with error := os.errno }
    let success := decide (0 ≤ os.received) || IsBlockingError os.errno
    let st2 := if st1.udp || success then
        { st1 with enabled_events := st1.enabled_events ||| DE_READ }
      else st1
    (os.received, st2)

/-- PhysicalSocketServer::Wait (POSIX), readiness classification for one
dispatcher: requested is GetRequestedEvents(), readReady / writeReady are
the fd_set memberships, errcode the SO_ERROR harvested when the fd is in
either set, isClosed the result of IsDescriptorClosed(). Returns the
logical event mask ff passed to OnPreEvent / OnEvent. -/
def deriveEvents (requested : Nat) (readReady writeReady : Bool)
    (errcode : Nat) (isClosed : Bool) : Nat :=
  let ff0 : Nat := 0
  let ff1 := if readReady then
      if requested &&& DE_ACCEPT ≠ 0 then ff0 ||| DE_ACCEPT
      else if errcode ≠ 0 ∨ isClosed then ff0 ||| DE_CLOSE
      else ff0 ||| DE_READ
    else ff0
  let ff2 := if writeReady then
      if requested &&& DE_CONNECT ≠ 0 then
        if errcode = 0 then ff1 ||| DE_CONNECT else ff1 ||| DE_CLOSE
      else ff1 ||| DE_WRITE
    else ff1
  ff2

/-- Application-level signals a SocketDispatcher can emit: SignalReadEvent,
SignalWriteEvent, SignalConnectEvent, SignalCloseEvent. -/
inductive Sig where
  | read
  | write
  | connect
  | close
deriving DecidableEq, Repr

/-- enabled_events_ &= ~b at uint8 width: the complement of the bit is taken
modulo 2^8 as in the source (enabled_events_ is a uint8). -/
def clearEvent (e b : Nat) : Nat :=
  e &&& (255 ^^^ b)

/-- SocketDispatcher::OnEvent (POSIX): processes the delivered mask ff bit by
bit in source order (READ, WRITE, CONNECT, ACCEPT, CLOSE), clearing each
delivered bit from enabled_events_ (CLOSE clears the whole mask) and then
emitting the corresponding signal. handler models the application handler
attached to each signal: it receives the signal and the current
enabled_events_ and returns the (possibly re-armed) enabled_events_. The
result is the final enabled_events_ together with the emission trace: for
each emitted signal, the triggering DE_ bit, the signal, and the value of
enabled_events_ at the moment of emission. -/
def OnEvent (handler : Sig → Nat → Nat) (ff : Nat) (e : Nat) :
    Nat × List (Nat × Sig × Nat) :=
  let p1 := if ff &&& DE_READ ≠ 0 then
      let e1 := clearEvent e DE_READ
      (handler Sig.read e1, [(DE_READ, Sig.read, e1)])
    else (e, [])
  let p2 := if ff &&& DE_WRITE ≠ 0 then
      let e1 := clearEvent p1.1 DE_WRITE
      (handler Sig.write e1, [(DE_WRITE, Sig.write, e1)])
    else (p1.1, [])
  let p3 := if ff &&& DE_CONNECT ≠ 0 then
      let e1 := clearEvent p2.1 DE_CONNECT
      (handler Sig.connect e1, [(DE_CONNECT, Sig.connect, e1)])
    else (p2.1, [])
  let p4 := if ff &&& DE_ACCEPT ≠ 0 then
      let e1 := clearEvent p3.1 DE_ACCEPT
      (handler Sig.read e1, [(DE_ACCEPT, Sig.read, e1)])
    else (p3.1, [])
  let p5 := if ff &&& DE_CLOSE ≠ 0 then
      (handler Sig.close 0, [(DE_CLOSE, Sig.close, 0)])
    else (p4.1, [])
  (p5.1, p1.2 ++ p2.2 ++ p3.2 ++ p4.2 ++ p5.2)

/-- PhysicalSocketServer::Remove: the dispatcher found at index k is erased
from the registry list. -/
def removeDispatcher (l : List Nat) (k : Nat) : List Nat :=
  l.eraseIdx k

/-- Cursor adjustment performed by PhysicalSocketServer::Remove for each live
iterator: a cursor is decremented exactly when the removed index is strictly
below it. -/
def adjustCursor (k c : Nat) : Nat :=
  if k < c then c - 1 else c

/-- State of the POSIX EventDispatcher self-pipe: the fSignaled_ flag and the
number of bytes pending in the pipe. -/
structure EvState where
  fSignaled : Bool
  pipe : Nat
deriving DecidableEq, Repr

/-- EventDispatcher::Signal (POSIX): writes one byte into the self-pipe and
sets fSignaled_, but only when fSignaled_ is not already set. -/
def edSignal (st : EvState) : EvState :=
  if st.fSignaled then st else { fSignaled := true, pipe := st.pipe + 1 }

/-- EventDispatcher::OnPreEvent (POSIX): when fSignaled_ is set, reads up to 4
bytes out of the pipe (one is expected) and clears fSignaled_. -/
def edOnPreEvent (st : EvState) : EvState :=
  if st.fSignaled then { fSignaled := false, pipe := st.pipe - min st.pipe 4 }
  else st

/-- IP header size constant from the source. -/
def IP_HEADER_SIZE : Nat := 20

/-- ICMP header size constant from the source. -/
def ICMP_HEADER_SIZE : Nat := 8

/-- Standard MTUs, from RFC 1191, with the terminating end-of-list marker 0
(PACKET_MAXIMUMS in the source; commented-out entries omitted there are
omitted here too). -/
def PACKET_MAXIMUMS : List Nat :=
  [65535, 32000, 17914, 8166, 4352, 2002, 1492, 1006, 508, 296, 68, 0]

/-- Result of one WinPing::Ping probe: PING_FAIL, PING_TOO_LARGE, or any
other (successful) result. -/
inductive PingResult where
  | fail
  | tooLarge
  | success
deriving DecidableEq, Repr

/-- Probing loop of PhysicalSocket::EstimateMTU (WIN32): for
(level = 0; PACKET_MAXIMUMS[level + 1] > 0; ++level) probe
PACKET_MAXIMUMS[level] - IP_HEADER_SIZE - ICMP_HEADER_SIZE; PING_FAIL
aborts with -1 (none), a result other than PING_TOO_LARGE returns 0 with
the current ladder entry (some), and falling off the loop returns -1
(none). The second component records the ladder entries actually probed. -/
def mtuLoop (ping : Nat → PingResult) : List Nat → Option Nat × List Nat
  | p :: q :: rest =>
      if 0 < q then
        match ping (p - IP_HEADER_SIZE - ICMP_HEADER_SIZE) with
        | PingResult.fail => (none, [p])
        | PingResult.tooLarge =>
            let r := mtuLoop ping (q :: rest)
            (r.1, p :: r.2)
        | PingResult.success => (some p, [p])
      else (none, [])
  | _ => (none, [])

/-- PhysicalSocket::EstimateMTU (WIN32), given the ping-probe outcomes. -/
def EstimateMTU (ping : Nat → PingResult) : Option Nat × List Nat :=
  mtuLoop ping PACKET_MAXIMUMS

/-- Ladder entries whose loop-guard PACKET_MAXIMUMS[level + 1] > 0 lets them
be probed. -/
def effEntries : List Nat → List Nat
  | p :: q :: rest => if 0 < q then p :: effEntries (q :: rest) else []
  | _ => []

/-- Does the probe for ladder entry p report something other than
PING_TOO_LARGE? -/
def probeOk (ping : Nat → PingResult) (p : Nat) : Bool :=
  ping (p - IP_HEADER_SIZE - ICMP_HEADER_SIZE) != PingResult.tooLarge

/-- C10: a PhysicalSocket constructed around an already-valid OS handle (the
WrapSocket / accept adoption path) starts CS_CONNECTED with enabled_events
equal to DE_READ ||| DE_WRITE, and one constructed without a handle starts
CS_CLOSED with no enabled events. -/
theorem constructor_initial_state (osType h : Nat) :
    (mkPhysicalSocket osType (some h)).state = ConnState.CS_CONNECTED ∧
    (mkPhysicalSocket osType (some h)).enabled_events = (DE_READ ||| DE_WRITE) ∧
    (WrapSocket osType h).state = ConnState.CS_CONNECTED ∧
    (WrapSocket osType h).enabled_events = (DE_READ ||| DE_WRITE) ∧
    (mkPhysicalSocket osType none).state = ConnState.CS_CLOSED ∧
    (mkPhysicalSocket osType none).enabled_events = 0 := by
  refine ⟨rfl, rfl, rfl, rfl, rfl, rfl⟩

/-- C6: Close is idempotent: after Create, the first Close returns 0 and
leaves CS_CLOSED with no enabled events and no resolver, and the second Close
returns 0 and changes nothing. -/
theorem close_idempotent (st : SockState) (fresh type : Nat) :
    (Close (Create fresh type st).2).1 = 0 ∧
    (Close (Close (Create fresh type st).2).2).1 = 0 ∧
    (Close (Create fresh type st).2).2.state = ConnState.CS_CLOSED ∧
    (Close (Create fresh type st).2).2.enabled_events = 0 ∧
    (Close (Create fresh type st).2).2.resolver = none ∧
    (Close (Close (Create fresh type st).2).2).2 =
      (Close (Create fresh type st).2).2 := by
  by_cases ht : type = SOCK_DGRAM <;>
    cases hs : st.s <;>
      simp [Create, Close, hs, ht]

/-- C1: when the OS-level recv returns zero bytes on a non-empty capacity,
PhysicalSocket::Recv returns SOCKET_ERROR with error EWOULDBLOCK and re-arms
DE_READ in enabled_events, so no zero-length read reaches the application;
with DE_READ re-armed, a later Wait iteration that sees the descriptor
read-ready with no pending error and IsDescriptorClosed() true derives
DE_CLOSE. -/
theorem recv_zero_defers_close (os : OsRecv) (len : Nat) (st : SockState)
    (h0 : os.received = 0) (hlen : len ≠ 0) (hudp : st.udp = false)
    (hacc : st.enabled_events &&& DE_ACCEPT = 0) :
    (Recv os len st).1 = SOCKET_ERROR ∧
    (Recv os len st).2.error = EWOULDBLOCK ∧
    (Recv os len st).2.enabled_events = (st.enabled_events ||| DE_READ) ∧
    (Recv os len st).2.enabled_events &&& DE_READ ≠ 0 ∧
    deriveEvents (Recv os len st).2.enabled_events true false 0 true =
      DE_CLOSE := by
  have hone : ∀ x : Nat, x ||| DE_READ ≠ 0 := by
    intro x h
    have h2 := congrArg (fun n => n.testBit 0) h
    simp [Nat.testBit_or, DE_READ] at h2
  have hrecv : (Recv os len st).1 = SOCKET_ERROR ∧
      (Recv os len st).2 = { st with
          enabled_events := st.enabled_events ||| DE_READ
        , error := EWOULDBLOCK } := by
    simp [Recv, h0, hlen]
  have hA : (st.enabled_events ||| DE_READ) &&& DE_ACCEPT = 0 := by
    rw [Nat.and_distrib_right, hacc]
    decide
  have hR : (st.enabled_events ||| DE_READ) &&& DE_READ ≠ 0 := by
    rw [Nat.and_distrib_right]
    have hself : DE_READ &&& DE_READ = DE_READ := by decide
    rw [hself]
    have hz : st.enabled_events &&& DE_READ ||| DE_READ ≠ 0 := hone _
    exact hz
  refine ⟨hrecv.1, ?_, ?_, ?_, ?_⟩ <;> simp [hrecv.2]
  · exact hR
  · simp [deriveEvents, hA]

/-- C2: readiness classification in the POSIX Wait loop: a read-ready
descriptor yields DE_ACCEPT when DE_ACCEPT was requested, else DE_CLOSE when
the harvested SO_ERROR is non-zero or IsDescriptorClosed() holds, else
DE_READ; a write-ready descriptor yields DE_CONNECT when DE_CONNECT was
requested and SO_ERROR is zero, DE_CLOSE when DE_CONNECT was requested and
SO_ERROR is non-zero, else DE_WRITE; the delivered mask is the union of the
two parts. -/
theorem wait_derive_events (req err : Nat) (closed rr wr : Bool) :
    deriveEvents req rr wr err closed =
      ((if rr then
          (if req &&& DE_ACCEPT ≠ 0 then DE_ACCEPT
           else if err ≠ 0 ∨ closed then DE_CLOSE
           else DE_READ)
        else 0) |||
       (if wr then
          (if req &&& DE_CONNECT ≠ 0 then
             (if err = 0 then DE_CONNECT else DE_CLOSE)
           else DE_WRITE)
        else 0)) := by
  unfold deriveEvents
  by_cases hrr : rr <;> by_cases hwr : wr <;>
    simp [hrr, hwr] <;> split_ifs <;> simp [Nat.zero_or, Nat.or_zero]

/-- C7: Connect with an unresolved address fails with EALREADY when the state
is not CS_CLOSED; when the state is CS_CLOSED it returns 0, records the owned
resolver started for that address, and the state is CS_CONNECTING on
return. -/
theorem connect_unresolved (fresh : Nat) (os : Option Nat)
    (addr : SocketAddress) (st : SockState) (hu : addr.unresolved = true) :
    (st.state ≠ ConnState.CS_CLOSED →
      (Connect fresh os addr st).1 = SOCKET_ERROR ∧
      (Connect fresh os addr st).2.error = EALREADY ∧
      (Connect fresh os addr st).2.state = st.state ∧
      (Connect fresh os addr st).2.resolver = st.resolver) ∧
    (st.state = ConnState.CS_CLOSED →
      (Connect fresh os addr st).1 = 0 ∧
      (Connect fresh os addr st).2.resolver = some addr ∧
      (Connect fresh os addr st).2.state = ConnState.CS_CONNECTING) := by
  cases hs : st.s <;>
    by_cases hc : st.state = ConnState.CS_CLOSED <;>
      simp [Connect, Create, Close, hs, hu, hc, SOCK_STREAM, SOCK_DGRAM]

/-- C7 witness: a freshly constructed handle-less socket is CS_CLOSED, so
Connect on the unresolved address returns 0, owns a resolver for it and is
CS_CONNECTING. -/
theorem connect_unresolved_witness :
    (Connect 7 none ⟨true, 3⟩ (mkPhysicalSocket SOCK_STREAM none)).1 = 0 ∧
    (Connect 7 none ⟨true, 3⟩ (mkPhysicalSocket SOCK_STREAM none)).2.resolver =
      some ⟨true, 3⟩ ∧
    (Connect 7 none ⟨true, 3⟩ (mkPhysicalSocket SOCK_STREAM none)).2.state =
      ConnState.CS_CONNECTING :=
  (connect_unresolved 7 none ⟨true, 3⟩ (mkPhysicalSocket SOCK_STREAM none)
    rfl).2 rfl

/-- C1 witness: a concrete stream-socket state with only DE_WRITE enabled and
a zero-byte recv outcome on capacity 1024. -/
theorem recv_zero_defers_close_witness :
    (Recv ⟨0, 0⟩ 1024 { s := some 5, enabled_events := DE_WRITE, udp := false
                      , error := 0, state := ConnState.CS_CONNECTED
                      , resolver := none }).1 = SOCKET_ERROR ∧
    (Recv ⟨0, 0⟩ 1024 { s := some 5, enabled_events := DE_WRITE, udp := false
                      , error := 0, state := ConnState.CS_CONNECTED
                      , resolver := none }).2.error = EWOULDBLOCK ∧
    (Recv ⟨0, 0⟩ 1024 { s := some 5, enabled_events := DE_WRITE, udp := false
                      , error := 0, state := ConnState.CS_CONNECTED
                      , resolver := none }).2.enabled_events =
      (DE_WRITE ||| DE_READ) ∧
    (Recv ⟨0, 0⟩ 1024 { s := some 5, enabled_events := DE_WRITE, udp := false
                      , error := 0, state := ConnState.CS_CONNECTED
                      , resolver := none }).2.enabled_events &&& DE_READ ≠ 0 ∧
    deriveEvents
      (Recv ⟨0, 0⟩ 1024 { s := some 5, enabled_events := DE_WRITE, udp := false
                        , error := 0, state := ConnState.CS_CONNECTED
                        , resolver := none }).2.enabled_events true false 0 true =
      DE_CLOSE := by
  have h := recv_zero_defers_close ⟨0, 0⟩ 1024
    { s := some 5, enabled_events := DE_WRITE, udp := false, error := 0
    , state := ConnState.CS_CONNECTED, resolver := none }
    rfl (by decide) rfl (by decide)
  exact h

/-- C3: in SocketDispatcher::OnEvent (POSIX), every emitted signal's
triggering bit is already cleared from enabled_events at the moment the
signal is emitted, and the CLOSE delivery clears enabled_events entirely
(to 0) before the close signal is emitted. -/
theorem onEvent_clears_before_emit (handler : Sig → Nat → Nat) (ff e : Nat) :
    ∀ p ∈ (OnEvent handler ff e).2,
      p.2.2 &&& p.1 = 0 ∧ (p.1 = DE_CLOSE → p.2.2 = 0) := by
  have hclear : ∀ x b : Nat, (255 ^^^ b) &&& b = 0 →
      clearEvent x b &&& b = 0 := by
    intro x b hb
    rw [clearEvent, Nat.and_assoc, hb, Nat.and_zero]
  by_cases h1 : ff &&& DE_READ ≠ 0 <;>
  by_cases h2 : ff &&& DE_WRITE ≠ 0 <;>
  by_cases h3 : ff &&& DE_CONNECT ≠ 0 <;>
  by_cases h4 : ff &&& DE_ACCEPT ≠ 0 <;>
  by_cases h5 : ff &&& DE_CLOSE ≠ 0 <;>
  simp [OnEvent, h1, h2, h3, h4, h5]
  all_goals repeat' apply And.intro
  all_goals first
    | exact hclear _ _ (by decide)
    | decide
    | (intro h; exact absurd h (by decide))

/-- C3 witness: delivering the full mask to a dispatcher with all events
enabled; the READ entry of the trace has DE_READ cleared at emission time. -/
theorem onEvent_clears_before_emit_witness :
    (DE_READ, Sig.read, clearEvent 255 DE_READ) ∈
      (OnEvent (fun _ x => x) 255 255).2 ∧
    clearEvent 255 DE_READ &&& DE_READ = 0 ∧
    (DE_READ = DE_CLOSE → clearEvent 255 DE_READ = 0) := by
  have hm : (DE_READ, Sig.read, clearEvent 255 DE_READ) ∈
      (OnEvent (fun _ x => x) 255 255).2 := by decide
  have h := onEvent_clears_before_emit (fun _ x => x) 255 255 _ hm
  exact ⟨hm, h.1, h.2⟩

/-- C4 counterexample: with the delivered mask DE_WRITE ||| DE_ACCEPT (a
write-ready listening socket), the emission trace of
SocketDispatcher::OnEvent (POSIX) is the write signal first and the
ACCEPT-derived read signal second, so the ACCEPT-derived read signal is not
emitted before the WRITE signal of the same batch, contrary to the claimed
READ/ACCEPT-first order. -/
theorem onEvent_accept_after_write :
    ((OnEvent (fun _ x => x) (DE_WRITE ||| DE_ACCEPT)
        (DE_WRITE ||| DE_ACCEPT)).2.map (fun p => p.2.1)) =
      [Sig.write, Sig.read] ∧
    ((OnEvent (fun _ x => x) (DE_WRITE ||| DE_ACCEPT)
        (DE_WRITE ||| DE_ACCEPT)).2.map (fun p => p.1)) =
      [DE_WRITE, DE_ACCEPT] := by
  exact ⟨rfl, rfl⟩

/-- C4 (amended): within one OnEvent call the signals are emitted in the
fixed source order READ, WRITE, CONNECT, ACCEPT, CLOSE — the ACCEPT bit maps
to the read signal but is processed after WRITE and CONNECT — i.e. the trace
is exactly the fixed order list filtered by the delivered mask. -/
theorem onEvent_emission_order (handler : Sig → Nat → Nat) (ff e : Nat) :
    ((OnEvent handler ff e).2.map (fun p => p.1)) =
      ([DE_READ, DE_WRITE, DE_CONNECT, DE_ACCEPT, DE_CLOSE].filter
          (fun b => ff &&& b != 0)) ∧
    ((OnEvent handler ff e).2.map (fun p => p.2.1)) =
      (([(DE_READ, Sig.read), (DE_WRITE, Sig.write), (DE_CONNECT, Sig.connect),
          (DE_ACCEPT, Sig.read), (DE_CLOSE, Sig.close)].filter
          (fun q => ff &&& q.1 != 0)).map (fun q => q.2)) := by
  by_cases h1 : ff &&& DE_READ ≠ 0 <;>
  by_cases h2 : ff &&& DE_WRITE ≠ 0 <;>
  by_cases h3 : ff &&& DE_CONNECT ≠ 0 <;>
  by_cases h4 : ff &&& DE_ACCEPT ≠ 0 <;>
  by_cases h5 : ff &&& DE_CLOSE ≠ 0 <;>
  simp [OnEvent, List.filter_cons, h1, h2, h3, h4, h5]

/-- Removing an index that was already visited (k strictly below the cursor)
leaves the decremented cursor pointing at the same remaining suffix. -/
theorem eraseIdx_drop_of_lt (l : List Nat) :
    ∀ k c : Nat, k < c → (l.eraseIdx k).drop (c - 1) = l.drop c := by
  induction l with
  | nil => intro k c _; simp [List.eraseIdx]
  | cons a l ih =>
      intro k c hkc
      cases k with
      | zero =>
          obtain ⟨c1, rfl⟩ : ∃ c1, c = c1 + 1 := ⟨c - 1, by omega⟩
          simp [List.eraseIdx]
      | succ k1 =>
          obtain ⟨c1, rfl⟩ : ∃ c1, c = c1 + 1 := ⟨c - 1, by omega⟩
          have hc1 : 0 < c1 := by omega
          obtain ⟨c2, rfl⟩ : ∃ c2, c1 = c2 + 1 := ⟨c1 - 1, by omega⟩
          have := ih k1 (c2 + 1) (by omega)
          simpa [List.eraseIdx] using this

/-- Removing an index not yet visited (k at or above the cursor) leaves the
unchanged cursor pointing at the old suffix with the k-th element erased. -/
theorem eraseIdx_drop_of_le (l : List Nat) :
    ∀ k c : Nat, c ≤ k → (l.eraseIdx k).drop c = (l.drop c).eraseIdx (k - c) := by
  induction l with
  | nil => intro k c _; simp [List.eraseIdx]
  | cons a l ih =>
      intro k c hck
      cases c with
      | zero => simp
      | succ c1 =>
          obtain ⟨k1, rfl⟩ : ∃ k1, k = k1 + 1 := ⟨k - 1, by omega⟩
          have := ih k1 c1 (by omega)
          simpa [List.eraseIdx, Nat.succ_sub_succ] using this

/-- C5: PhysicalSocketServer::Remove at index k decrements exactly the live
cursors strictly above k and leaves the others unchanged, and afterwards
each adjusted cursor's remaining-to-visit suffix of the registry is the old
suffix (when the removed slot was already visited) or the old suffix with
the removed element erased (when it was not yet visited); with a
duplicate-free registry the remaining suffix stays duplicate-free, so an
iteration in progress visits each remaining dispatcher exactly once and none
twice. -/
theorem remove_preserves_iteration (l : List Nat) (k c : Nat) :
    (k < c → adjustCursor k c = c - 1) ∧
    (c ≤ k → adjustCursor k c = c) ∧
    (k < c → (removeDispatcher l k).drop (adjustCursor k c) = l.drop c) ∧
    (c ≤ k → (removeDispatcher l k).drop (adjustCursor k c) =
       (l.drop c).eraseIdx (k - c)) ∧
    (l.Nodup → ((removeDispatcher l k).drop (adjustCursor k c)).Nodup) := by
  refine ⟨?_, ?_, ?_, ?_, ?_⟩
  · intro h; simp [adjustCursor, h]
  · intro h; simp [adjustCursor, Nat.not_lt.mpr h]
  · intro h
    rw [removeDispatcher, adjustCursor, if_pos h]
    exact eraseIdx_drop_of_lt l k c h
  · intro h
    rw [removeDispatcher, adjustCursor, if_neg (Nat.not_lt.mpr h)]
    exact eraseIdx_drop_of_le l k c h
  · intro hnd
    have hsub : List.Sublist ((removeDispatcher l k).drop (adjustCursor k c)) l :=
      List.Sublist.trans (List.drop_sublist _ _) (List.eraseIdx_sublist l k)
    exact hnd.sublist hsub

/-- C5 witness: registry [10, 20, 30, 40] with a cursor at 2; removing index
1 decrements the cursor to 1 and the remaining suffix [30, 40] is preserved;
removing index 3 with cursor 2 keeps the cursor and erases 40 from the
remaining suffix. -/
theorem remove_preserves_iteration_witness :
    adjustCursor 1 2 = 1 ∧
    (removeDispatcher [10, 20, 30, 40] 1).drop (adjustCursor 1 2) =
      [10, 20, 30, 40].drop 2 ∧
    adjustCursor 3 2 = 2 ∧
    (removeDispatcher [10, 20, 30, 40] 3).drop (adjustCursor 3 2) =
      ([10, 20, 30, 40].drop 2).eraseIdx 1 ∧
    ((removeDispatcher [10, 20, 30, 40] 1).drop (adjustCursor 1 2)).Nodup := by
  have h1 := remove_preserves_iteration [10, 20, 30, 40] 1 2
  have h3 := remove_preserves_iteration [10, 20, 30, 40] 3 2
  exact ⟨h1.1 (by decide), h1.2.2.1 (by decide), h3.2.1 (by decide),
         h3.2.2.2.1 (by decide), h1.2.2.2.2 (by decide)⟩

/-- C9: starting from the unsignalled EventDispatcher (POSIX) with an empty
self-pipe, any positive number of Signal() calls with no intervening
OnPreEvent writes exactly one byte in total (the pipe holds one byte and
fSignaled_ is set), and OnPreEvent then reads that byte and clears the flag,
restoring the initial empty state. -/
theorem eventDispatcher_signal_once (st : EvState) (hf : st.fSignaled = false)
    (hp : st.pipe = 0) (n : Nat) (hn : 1 ≤ n) :
    edSignal^[n] st = { fSignaled := true, pipe := 1 } ∧
    edOnPreEvent (edSignal^[n] st) = { fSignaled := false, pipe := 0 } := by
  obtain ⟨m, rfl⟩ : ∃ m, n = m + 1 := ⟨n - 1, by omega⟩
  have h1 : edSignal st = { fSignaled := true, pipe := 1 } := by
    simp [edSignal, hf, hp]
  have hfix : edSignal { fSignaled := true, pipe := 1 } =
      { fSignaled := true, pipe := 1 } := by
    simp [edSignal]
  have hiter : edSignal^[m + 1] st = { fSignaled := true, pipe := 1 } := by
    rw [Function.iterate_succ_apply, h1]
    exact Function.iterate_fixed hfix m
  refine ⟨hiter, ?_⟩
  rw [hiter]
  simp [edOnPreEvent]

/-- C9 witness: three consecutive Signal() calls from the empty state leave
one pending byte, and OnPreEvent drains it. -/
theorem eventDispatcher_signal_once_witness :
    edSignal^[3] { fSignaled := false, pipe := 0 } =
      { fSignaled := true, pipe := 1 } ∧
    edOnPreEvent (edSignal^[3] { fSignaled := false, pipe := 0 }) =
      { fSignaled := false, pipe := 0 } :=
  eventDispatcher_signal_once { fSignaled := false, pipe := 0 } rfl rfl 3
    (by decide)

/-- Characterization of the EstimateMTU probing loop when no probe reports
PING_FAIL: the result is the first loop-guarded ladder entry whose probe does
not report PING_TOO_LARGE, and the entries probed are the too-large prefix
followed by that entry (when it exists). -/
theorem mtuLoop_char (ping : Nat → PingResult)
    (hnf : ∀ s, ping s ≠ PingResult.fail) :
    ∀ l : List Nat,
      mtuLoop ping l =
        ((effEntries l).find? (probeOk ping),
         (effEntries l).takeWhile (fun p => !probeOk ping p) ++
           ((effEntries l).find? (probeOk ping)).toList) := by
  intro l
  induction l with
  | nil => simp [mtuLoop, effEntries]
  | cons p t ih =>
      cases t with
      | nil => simp [mtuLoop, effEntries]
      | cons q rest =>
          by_cases hq : 0 < q
          · cases hping : ping (p - IP_HEADER_SIZE - ICMP_HEADER_SIZE) with
            | fail => exact absurd hping (hnf _)
            | tooLarge =>
                have hpo : probeOk ping p = false := by
                  simp [probeOk, hping]
                simp [mtuLoop, effEntries, hq, hping, hpo, ih]
            | success =>
                have hpo : probeOk ping p = true := by
                  simp [probeOk, hping]
                simp [mtuLoop, effEntries, hq, hping, hpo]
          · simp [mtuLoop, effEntries, hq]

/-- Ladder entries that the loop guard PACKET_MAXIMUMS[level + 1] > 0 admits:
all entries except the final 68 (and the 0 marker). -/
theorem effEntries_packet_maximums :
    effEntries PACKET_MAXIMUMS =
      [65535, 32000, 17914, 8166, 4352, 2002, 1492, 1006, 508, 296] := by
  decide

/-- C8 counterexample: when every probe reports PING_TOO_LARGE, EstimateMTU
gives up (returns -1, modelled none) after probing only the ten entries
65535 … 296: the ladder entry 68 is never probed, contrary to the claim that
every entry including 68 is probed before the function gives up. -/
theorem estimateMTU_68_never_probed :
    (EstimateMTU (fun _ => PingResult.tooLarge)).1 = none ∧
    (EstimateMTU (fun _ => PingResult.tooLarge)).2 =
      [65535, 32000, 17914, 8166, 4352, 2002, 1492, 1006, 508, 296] ∧
    68 ∉ (EstimateMTU (fun _ => PingResult.tooLarge)).2 := by
  refine ⟨rfl, rfl, by decide⟩

/-- C8 (amended): with no probe reporting failure, EstimateMTU probes the
ladder entries 65535, 32000, 17914, 8166, 4352, 2002, 1492, 1006, 508, 296
in order — each probe's payload being the entry minus the 20-byte IP header
and 8-byte ICMP header — and returns the first (largest) such entry whose
probe does not report too-large; the final ladder entry 68 is never probed,
so if all ten probed entries report too-large the function gives up without
probing 68. -/
theorem estimateMTU_ladder (ping : Nat → PingResult)
    (hnf : ∀ s, ping s ≠ PingResult.fail) :
    (EstimateMTU ping).1 =
      ([65535, 32000, 17914, 8166, 4352, 2002, 1492, 1006, 508, 296].find?
        (probeOk ping)) ∧
    (EstimateMTU ping).2 =
      ([65535, 32000, 17914, 8166, 4352, 2002, 1492, 1006, 508, 296].takeWhile
        (fun p => !probeOk ping p) ++
       (([65535, 32000, 17914, 8166, 4352, 2002, 1492, 1006, 508, 296].find?
        (probeOk ping)).toList)) ∧
    68 ∉ (EstimateMTU ping).2 := by
  have hc := mtuLoop_char ping hnf PACKET_MAXIMUMS
  rw [effEntries_packet_maximums] at hc
  have h1 : (EstimateMTU ping).1 =
      ([65535, 32000, 17914, 8166, 4352, 2002, 1492, 1006, 508, 296].find?
        (probeOk ping)) := by
    rw [EstimateMTU, hc]
  have h2 : (EstimateMTU ping).2 =
      ([65535, 32000, 17914, 8166, 4352, 2002, 1492, 1006, 508, 296].takeWhile
        (fun p => !probeOk ping p) ++
       (([65535, 32000, 17914, 8166, 4352, 2002, 1492, 1006, 508, 296].find?
        (probeOk ping)).toList)) := by
    rw [EstimateMTU, hc]
  refine ⟨h1, h2, ?_⟩
  rw [h2]
  intro hmem
  rcases List.mem_append.mp hmem with hTW | hFD
  · have hin : (68 : Nat) ∈
        [65535, 32000, 17914, 8166, 4352, 2002, 1492, 1006, 508, 296] :=
      (List.takeWhile_sublist _).mem hTW
    exact absurd hin (by decide)
  · rcases Option.mem_toList.mp hFD with hfd
    have hin : (68 : Nat) ∈
        [65535, 32000, 17914, 8166, 4352, 2002, 1492, 1006, 508, 296] :=
      List.mem_of_find?_eq_some hfd
    exact absurd hin (by decide)

/-- C8 witness: when every probe succeeds, the theorem yields the first
ladder entry 65535, and 68 is still never probed. -/
theorem estimateMTU_ladder_witness :
    (EstimateMTU (fun _ => PingResult.success)).1 = some 65535 ∧
    68 ∉ (EstimateMTU (fun _ => PingResult.success)).2 := by
  have h := estimateMTU_ladder (fun _ => PingResult.success)
    (fun s => by simp)
  refine ⟨?_, h.2.2⟩
  rw [h.1]
  rfl

end talk_base
